import Mathlib

/-!
Verification of the `DateRangePicker` widget (src/src/DateRangePicker.tsx).

Dates are modelled at day granularity as integers counting days since
1970-01-01 (the spec declares date-only semantics).  `isAfter`, `isBefore`
and `isSame(_, 'day')` on such values are the integer comparisons, and the
dayjs `isBetween(a, b, null, '[]')` plugin formula is transcribed verbatim.
The component is controlled: every selection change is reported through
`onChange` and echoed back as the `value` prop, and the `useEffect` at
lines 185-187 re-derives the displayed picker position from the echoed
selection and the turn flag.
-/

namespace DateRangePicker

/-- `dayjs(...).day()`: day of week, 0 = Sunday .. 6 = Saturday.
1970-01-01 (day 0) was a Thursday, i.e. `day() = 4`. -/
def dayOfWeek (d : Int) : Int := (d + 4).emod 7

/-- dayjs `isBetween` plugin with inclusivity `'[]'` and both comparisons at
the modelled granularity: `(!this.isBefore(a) && !this.isAfter(b)) ||
(!this.isAfter(a) && !this.isBefore(b))`. -/
def isBetweenIncl (d a b : Int) : Bool :=
  (!(decide (d < a)) && !(decide (b < d))) || (!(decide (a < d)) && !(decide (d < b)))

/-- The styling booleans computed for one rendered calendar day by the `Day`
component (lines 53-87) together with the endpoint highlight applied by
`CustomPickersDay` (lines 35-38). -/
structure DayStyle where
  dayIsBetween : Bool
  isFirstDay : Bool
  isLastDay : Bool
  roundedLeft : Bool
  roundedRight : Bool
  strongHighlight : Bool
  deriving Repr, DecidableEq

/-- Body of `Day` once at least one endpoint is set, with `s`/`e` the values
of `startDay || endDay` and `endDay || startDay`. -/
def mkDayStyle (s e day : Int) : DayStyle :=
  let dayIsBetween := isBetweenIncl day s e
  let isFirstDay := decide (day = s)
  let isSunday := decide (dayOfWeek day = 0)
  let isSaturday := decide (dayOfWeek day = 6)
  let isLastDay := decide (day = e)
  { dayIsBetween := dayIsBetween
    isFirstDay := isFirstDay
    isLastDay := isLastDay
    roundedLeft := isFirstDay || isSunday
    roundedRight := isLastDay || isSaturday
    strongHighlight := isFirstDay || isLastDay }

/-- The `Day` slot component: with no endpoint set it falls back to the plain
`PickersDay` (no custom styling, modelled as `none`); otherwise
`start = startDay || endDay` and `end = endDay || startDay`. -/
def renderDay (startDay endDay : Option Int) (day : Int) : Option DayStyle :=
  match startDay, endDay with
  | none, none => none
  | some s, some e => some (mkDayStyle s e day)
  | some s, none => some (mkDayStyle s s day)
  | none, some e => some (mkDayStyle e e day)

/-- Three-letter month name as produced by the dayjs `MMM` format token. -/
def monthShortName : Nat → String
  | 1 => "Jan" | 2 => "Feb" | 3 => "Mar" | 4 => "Apr"
  | 5 => "May" | 6 => "Jun" | 7 => "Jul" | 8 => "Aug"
  | 9 => "Sep" | 10 => "Oct" | 11 => "Nov" | 12 => "Dec"
  | _ => ""

/-- Proleptic-Gregorian conversion from days since 1970-01-01 to
(year, month 1-12, day-of-month), the calendar dayjs formats with. -/
def civilFromDays (z : Int) : Int × Nat × Nat :=
  let z := z + 719468
  let era := z.fdiv 146097
  let doe := (z - era * 146097).toNat
  let yoe := (doe - doe / 1460 + doe / 36524 - doe / 146096) / 365
  let y : Int := (yoe : Int) + era * 400
  let doy := doe - (365 * yoe + yoe / 4 - yoe / 100)
  let mp := (5 * doy + 2) / 153
  let d := doy - (153 * mp + 2) / 5 + 1
  let m := if mp < 10 then mp + 3 else mp - 9
  (if m ≤ 2 then y + 1 else y, m, d)

/-- Inverse conversion: days since 1970-01-01 of a Gregorian calendar date. -/
def daysFromCivil (y : Int) (m d : Nat) : Int :=
  let y := if m ≤ 2 then y - 1 else y
  let era := y.fdiv 400
  let yoe := (y - era * 400).toNat
  let doy := (153 * (if 2 < m then m - 3 else m + 9) + 2) / 5 + d - 1
  let doe := yoe * 365 + yoe / 4 - yoe / 100 + doy
  era * 146097 + (doe : Int) - 719468

/-- dayjs `format('D MMM YYYY')`: day of month without leading zero, short
month name, full year. -/
def formatDMMMYYYY (z : Int) : String :=
  let c := civilFromDays z
  toString c.2.2 ++ " " ++ monthShortName c.2.1 ++ " " ++ toString c.1

/-- The `value` string of the text field (lines 153-155):
start formatted or the literal `Start`, then ` - `, then end formatted or
the literal `End`. -/
def displayString (startDay endDay : Option Int) : String :=
  (match startDay with
   | some s => formatDMMMYYYY s
   | none => "Start") ++ " - " ++
  (match endDay with
   | some e => formatDMMMYYYY e
   | none => "End")

/-- Whether the clear adornment is rendered (line 102, 127):
`hasDateSelected = !!(startDay || endDay)`. -/
def hasDateSelected (startDay endDay : Option Int) : Bool :=
  startDay.isSome || endDay.isSome

/-- A selection pair as passed through `value` / `onChange`. -/
abbrev Selection := Option Int × Option Int

/-- The component state that the claims are about: the echoed-back selection
(`value[0]`, `value[1]`), the `startTurn` flag and the displayed picker
position `pickerValue`. -/
structure PickerState where
  startDay : Option Int
  endDay : Option Int
  startTurn : Bool
  pickerValue : Option Int
  deriving Repr, DecidableEq

/-- Mount state for a caller starting from the empty selection:
`startTurn = true` and `pickerValue = startDay || null = none`. -/
def initialState : PickerState :=
  { startDay := none, endDay := none, startTurn := true, pickerValue := none }

/-- `handleChange` (lines 189-214) combined with the caller echoing the
reported pair back into `value` and the `useEffect` (lines 185-187) settling
`pickerValue` to `startTurn ? startDay : endDay`.  Returns the settled state
and the pair reported through `onChange` (`none` when the callback was not
invoked). -/
def clickStep (st : PickerState) (newValue : Option Int) :
    PickerState × Option Selection :=
  match newValue with
  | none => (st, none)
  | some d =>
    if st.startTurn then
      let isReverse := match st.endDay with
        | none => false
        | some e => decide (e < d)
      let pair : Selection := if isReverse then (some d, none) else (some d, st.endDay)
      ({ startDay := pair.1, endDay := pair.2, startTurn := false,
         pickerValue := pair.2 }, some pair)
    else
      let isReverse := match st.startDay with
        | none => false
        | some s => decide (d < s)
      if isReverse then
        ({ startDay := some d, endDay := st.startDay, startTurn := false,
           pickerValue := st.startDay }, some (some d, st.startDay))
      else
        ({ startDay := st.startDay, endDay := some d, startTurn := true,
           pickerValue := st.startDay }, some (st.startDay, some d))

/-- `handleClear` (lines 216-221) with the reported `[null, null]` echoed
back: selection cleared, `pickerValue` cleared, `startTurn` reset. -/
def clearStep (_st : PickerState) : PickerState × Selection :=
  ({ startDay := none, endDay := none, startTurn := true, pickerValue := none },
   (none, none))

/-- A user interaction the widget reacts to. -/
inductive Action where
  | click (d : Option Int)
  | clear
  deriving Repr, DecidableEq

/-- State transition for one action. -/
def applyAction (st : PickerState) : Action → PickerState
  | Action.click d => (clickStep st d).1
  | Action.clear => (clearStep st).1

/-- Run a sequence of actions from a state. -/
def runActions (st : PickerState) : List Action → PickerState
  | [] => st
  | a :: rest => runActions (applyAction st a) rest

/-- States reachable from the initial state by click and clear transitions,
with every reported pair echoed back. -/
inductive Reachable : PickerState → Prop
  | init : Reachable initialState
  | step (st : PickerState) (a : Action) : Reachable st → Reachable (applyAction st a)

/-- Spec-side description of the range bounds: the earlier and later of the
two endpoints, a lone endpoint serving as both bounds; `none` when no
endpoint is set. -/
def rangeBounds : Option Int → Option Int → Option (Int × Int)
  | none, none => none
  | some s, some e => some (min s e, max s e)
  | some s, none => some (s, s)
  | none, some e => some (e, e)

lemma isBetweenIncl_iff (d a b : Int) :
    isBetweenIncl d a b = true ↔ (min a b ≤ d ∧ d ≤ max a b) := by
  simp only [isBetweenIncl, Bool.or_eq_true, Bool.and_eq_true, Bool.not_eq_true',
    decide_eq_false_iff_not, not_lt]
  omega

/-- The selection produced by any single transition satisfies the ordering
invariant, and a null click leaves the state unchanged. -/
lemma applyAction_invariant (st : PickerState) (a : Action)
    (ih : ∀ s e : Int, st.startDay = some s → st.endDay = some e → s ≤ e)
    (s e : Int) (hs : (applyAction st a).startDay = some s)
    (he : (applyAction st a).endDay = some e) : s ≤ e := by
  cases a with
  | clear => simp [applyAction, clearStep] at hs
  | click d =>
    cases d with
    | none => exact ih s e hs he
    | some d =>
      cases hturn : st.startTurn with
      | true =>
        cases hed : st.endDay with
        | none => simp [applyAction, clickStep, hturn, hed] at hs he
        | some e0 =>
          by_cases hrev : e0 < d
          · simp [applyAction, clickStep, hturn, hed, hrev] at hs he
          · simp [applyAction, clickStep, hturn, hed, hrev] at hs he
            omega
      | false =>
        cases hsd : st.startDay with
        | none => simp [applyAction, clickStep, hturn, hsd] at hs he
        | some s0 =>
          by_cases hrev : d < s0
          · simp [applyAction, clickStep, hturn, hsd, hrev] at hs he
            omega
          · simp [applyAction, clickStep, hturn, hsd, hrev] at hs he
            omega

/-- C1: with the turn flag at "end" and a start date `s` present, clicking
`d` strictly before `s` reports the swapped pair `(d, s)`, the echoed state
holds selection `(d, s)`, and the turn flag stays at "end"
(`startTurn = false`); in particular clicking `A` from the empty selection
and then `B` with `B < A` ends in selection `(B, A)` with the turn still at
"end". -/
theorem C1_end_turn_reversal (st : PickerState) (d s : Int)
    (hturn : st.startTurn = false) (hs : st.startDay = some s) (hlt : d < s) :
    ((clickStep st (some d)).2 = some (some d, some s) ∧
     (clickStep st (some d)).1.startDay = some d ∧
     (clickStep st (some d)).1.endDay = some s ∧
     (clickStep st (some d)).1.startTurn = false) ∧
    (∀ A B : Int, B < A →
      let st2 := runActions initialState [Action.click (some A), Action.click (some B)]
      st2.startDay = some B ∧ st2.endDay = some A ∧ st2.startTurn = false) := by
  constructor
  · simp [clickStep, hturn, hs, hlt]
  · intro A B hBA
    simp [runActions, applyAction, clickStep, initialState, hBA]

/-- Closed instance of `C1_end_turn_reversal` at a concrete state. -/
theorem C1_witness :
    (clickStep { startDay := some 9, endDay := some 12, startTurn := false,
                 pickerValue := some 12 } (some 4)).2 = some (some 4, some 9) ∧
    (runActions initialState
      [Action.click (some 7), Action.click (some 2)]).startDay = some 2 := by
  have h := C1_end_turn_reversal
    { startDay := some 9, endDay := some 12, startTurn := false,
      pickerValue := some 12 } 4 9 rfl rfl (by decide)
  exact ⟨h.1.1, (h.2 7 2 (by decide)).1⟩

/-- C2: with the turn flag at "start", clicking `d` flips the turn flag to
"end", reports exactly the pair stored into the echoed state, and the
reported pair is `(d, none)` when an end date `e < d` exists and `(d, e)`
otherwise (`e` possibly absent). -/
theorem C2_start_turn_click (st : PickerState) (d : Int)
    (hturn : st.startTurn = true) :
    (clickStep st (some d)).1.startTurn = false ∧
    (clickStep st (some d)).2 =
      some ((clickStep st (some d)).1.startDay, (clickStep st (some d)).1.endDay) ∧
    (match st.endDay with
     | some e =>
        if e < d then (clickStep st (some d)).2 = some (some d, none)
        else (clickStep st (some d)).2 = some (some d, some e)
     | none => (clickStep st (some d)).2 = some (some d, none)) := by
  refine ⟨?_, ?_, ?_⟩
  · cases hed : st.endDay <;> simp [clickStep, hturn, hed]
  · cases hed : st.endDay <;> simp [clickStep, hturn, hed]
  · cases hed : st.endDay with
    | none => simp [clickStep, hturn, hed]
    | some e =>
      by_cases hrev : e < d <;> simp [clickStep, hturn, hed, hrev]

/-- Closed instance of `C2_start_turn_click` at a concrete state. -/
theorem C2_witness :
    (clickStep { startDay := none, endDay := some 5, startTurn := true,
                 pickerValue := some 5 } (some 8)).1.startTurn = false :=
  (C2_start_turn_click
    { startDay := none, endDay := some 5, startTurn := true,
      pickerValue := some 5 } 8 rfl).1

/-- C3: in every state reachable from the initial empty selection by click
and clear transitions (reported pairs echoed back), whenever both endpoints
are present the start is not after the end. -/
theorem C3_reachable_ordered (st : PickerState) (h : Reachable st) (s e : Int)
    (hs : st.startDay = some s) (he : st.endDay = some e) : s ≤ e := by
  induction h generalizing s e with
  | init => simp [initialState] at hs
  | step st' a _ ih => exact applyAction_invariant st' a ih s e hs he

/-- Closed instance of `C3_reachable_ordered` on the reachable state after
clicking 1 then 2. -/
theorem C3_witness :
    (runActions initialState
      [Action.click (some 1), Action.click (some 2)]).startDay = some 1 ∧
    (runActions initialState
      [Action.click (some 1), Action.click (some 2)]).endDay = some 2 ∧
    (1 : Int) ≤ 2 :=
  ⟨rfl, rfl,
    C3_reachable_ordered
      (applyAction (applyAction initialState (Action.click (some 1)))
        (Action.click (some 2)))
      (Reachable.step _ _ (Reachable.step _ _ Reachable.init)) 1 2 rfl rfl⟩

/-- C4: from the empty selection with the turn flag at "start", clicking `A`
and then `B` with `A ≤ B` (equality included) ends in selection `(A, B)`
with the turn flag back at "start". -/
theorem C4_forward_two_clicks (A B : Int) (h : A ≤ B) :
    (runActions initialState [Action.click (some A), Action.click (some B)]).startDay
      = some A ∧
    (runActions initialState [Action.click (some A), Action.click (some B)]).endDay
      = some B ∧
    (runActions initialState [Action.click (some A), Action.click (some B)]).startTurn
      = true := by
  have hnot : ¬ B < A := not_lt.mpr h
  simp [runActions, applyAction, clickStep, initialState, hnot]

/-- Closed instance of `C4_forward_two_clicks` at the equal-dates case. -/
theorem C4_witness :
    (runActions initialState
      [Action.click (some 3), Action.click (some 3)]).startDay = some 3 ∧
    (runActions initialState
      [Action.click (some 3), Action.click (some 3)]).endDay = some 3 :=
  ⟨(C4_forward_two_clicks 3 3 (by decide)).1, (C4_forward_two_clicks 3 3 (by decide)).2.1⟩

/-- C5: from any prior state, the clear action produces the empty selection
with the turn flag at "start" and no displayed picker position, and reports
the pair `(none, none)`. -/
theorem C5_clear (st : PickerState) :
    clearStep st =
      ({ startDay := none, endDay := none, startTurn := true, pickerValue := none },
       (none, none)) := rfl

/-- C9: clicking with a null date changes nothing and reports nothing. -/
theorem C9_null_click_noop (st : PickerState) :
    clickStep st none = (st, none) := rfl

/-- C6: with at least one endpoint set, a day is styled in-range exactly
when it lies in the closed interval between the earlier and later bound,
a lone endpoint serving as both bounds. -/
theorem C6_in_range_iff (sd ed : Option Int) (day : Int) (st : DayStyle)
    (lo hi : Int) (hst : renderDay sd ed day = some st)
    (hb : rangeBounds sd ed = some (lo, hi)) :
    st.dayIsBetween = true ↔ (lo ≤ day ∧ day ≤ hi) := by
  rcases sd with _ | s <;> rcases ed with _ | e
  · simp [renderDay] at hst
  · simp only [renderDay, Option.some.injEq] at hst
    simp only [rangeBounds, Option.some.injEq, Prod.mk.injEq] at hb
    obtain ⟨rfl, rfl⟩ := hb
    subst hst
    simp [mkDayStyle, isBetweenIncl_iff]
  · simp only [renderDay, Option.some.injEq] at hst
    simp only [rangeBounds, Option.some.injEq, Prod.mk.injEq] at hb
    obtain ⟨rfl, rfl⟩ := hb
    subst hst
    simp [mkDayStyle, isBetweenIncl_iff]
  · simp only [renderDay, Option.some.injEq] at hst
    simp only [rangeBounds, Option.some.injEq, Prod.mk.injEq] at hb
    obtain ⟨rfl, rfl⟩ := hb
    subst hst
    simp [mkDayStyle, isBetweenIncl_iff]

/-- Closed instance of `C6_in_range_iff` at a concrete selection and day. -/
theorem C6_witness :
    (mkDayStyle 10 14 12).dayIsBetween = true ↔ ((10 : Int) ≤ 12 ∧ (12 : Int) ≤ 14) :=
  C6_in_range_iff (some 10) (some 14) 12 (mkDayStyle 10 14 12) 10 14 rfl (by decide)

/-- C7 as stated is false: for the reversed both-set selection
`(start, end) = (5, 3)` the day equal to the earlier bound 3 is not marked
is-first, and the day equal to the later bound 5 is not marked is-last
(the code compares against slot 0 and slot 1, not against the ordered
bounds). -/
theorem C7_counterexample :
    rangeBounds (some 5) (some 3) = some (3, 5) ∧
    (renderDay (some 5) (some 3) 3).map DayStyle.isFirstDay = some false ∧
    (renderDay (some 5) (some 3) 5).map DayStyle.isLastDay = some false := by
  decide

/-- C7 (amended): for every selection with at least one endpoint set whose
endpoints, when both present, satisfy start ≤ end, a day is marked is-first
exactly when it equals the earlier bound and is-last exactly when it equals
the later bound, and endpoint days receive the strong endpoint highlight. -/
theorem C7_endpoint_marks (sd ed : Option Int) (day : Int) (st : DayStyle)
    (lo hi : Int) (hst : renderDay sd ed day = some st)
    (hb : rangeBounds sd ed = some (lo, hi))
    (hord : ∀ s e : Int, sd = some s → ed = some e → s ≤ e) :
    (st.isFirstDay = true ↔ day = lo) ∧ (st.isLastDay = true ↔ day = hi) ∧
    ((day = lo ∨ day = hi) → st.strongHighlight = true) := by
  rcases sd with _ | s <;> rcases ed with _ | e
  · simp [renderDay] at hst
  · simp only [renderDay, Option.some.injEq] at hst
    simp only [rangeBounds, Option.some.injEq, Prod.mk.injEq] at hb
    obtain ⟨rfl, rfl⟩ := hb
    subst hst
    refine ⟨by simp [mkDayStyle], by simp [mkDayStyle], ?_⟩
    rintro (rfl | rfl) <;> simp [mkDayStyle]
  · simp only [renderDay, Option.some.injEq] at hst
    simp only [rangeBounds, Option.some.injEq, Prod.mk.injEq] at hb
    obtain ⟨rfl, rfl⟩ := hb
    subst hst
    refine ⟨by simp [mkDayStyle], by simp [mkDayStyle], ?_⟩
    rintro (rfl | rfl) <;> simp [mkDayStyle]
  · have hse : s ≤ e := hord s e rfl rfl
    simp only [renderDay, Option.some.injEq] at hst
    simp only [rangeBounds, Option.some.injEq, Prod.mk.injEq] at hb
    obtain ⟨rfl, rfl⟩ := hb
    subst hst
    rw [min_eq_left hse, max_eq_right hse]
    refine ⟨by simp [mkDayStyle], by simp [mkDayStyle], ?_⟩
    rintro (rfl | rfl) <;> simp [mkDayStyle]

/-- Closed instance of `C7_endpoint_marks` at a concrete ordered selection. -/
theorem C7_witness :
    ((mkDayStyle 2 6 2).isFirstDay = true ↔ (2 : Int) = 2) ∧
    (mkDayStyle 2 6 2).strongHighlight = true := by
  have h := C7_endpoint_marks (some 2) (some 6) 2 (mkDayStyle 2 6 2) 2 6 rfl
    (by decide)
    (by intro s e hs he; simp only [Option.some.injEq] at hs he; omega)
  exact ⟨h.1, h.2.2 (Or.inl rfl)⟩

/-- C8: the text field's value is the start formatted as `D MMM YYYY` (or
the literal `Start`), then ` - `, then the end formatted likewise (or the
literal `End`); in particular the empty pair displays `Start - End` and
`(15 Jan 2024, none)` displays `15 Jan 2024 - End`. -/
theorem C8_display_string :
    (∀ sd ed : Option Int,
      displayString sd ed =
        (match sd with
         | some s => formatDMMMYYYY s
         | none => "Start") ++ " - " ++
        (match ed with
         | some e => formatDMMMYYYY e
         | none => "End")) ∧
    displayString none none = "Start - End" ∧
    displayString (some (daysFromCivil 2024 1 15)) none = "15 Jan 2024 - End" :=
  ⟨fun _ _ => rfl, rfl, rfl⟩

/-- C10: the week-boundary corner rounding is hard-coded to day-of-week 0
(Sunday, left corners) and 6 (Saturday, right corners); once a style is
produced at all, it is applied to every Sunday/Saturday cell independently
of the in-range predicate. -/
theorem C10_week_boundary_rounding (sd ed : Option Int) (day : Int)
    (st : DayStyle) (hst : renderDay sd ed day = some st) :
    st.roundedLeft = (st.isFirstDay || decide (dayOfWeek day = 0)) ∧
    st.roundedRight = (st.isLastDay || decide (dayOfWeek day = 6)) ∧
    (dayOfWeek day = 0 → st.roundedLeft = true) ∧
    (dayOfWeek day = 6 → st.roundedRight = true) := by
  rcases sd with _ | s <;> rcases ed with _ | e
  · simp [renderDay] at hst
  all_goals
    simp only [renderDay, Option.some.injEq] at hst
    subst hst
    refine ⟨rfl, rfl, ?_, ?_⟩ <;> intro h <;> simp [mkDayStyle, h]

/-- Closed instance of `C10_week_boundary_rounding`: day 17 is a Sunday and
lies outside the selected range [10, 12], yet its left corners are
rounded while it is not styled in-range. -/
theorem C10_witness :
    (mkDayStyle 10 12 17).roundedLeft = true ∧
    (mkDayStyle 10 12 17).dayIsBetween = false := by
  have h := C10_week_boundary_rounding (some 10) (some 12) 17
    (mkDayStyle 10 12 17) rfl
  exact ⟨h.2.2.1 (by decide), by decide⟩

end DateRangePicker
